

import Mathlib

/-!
Verification of the Digital-Signage-v2 asset pipeline.

This file shallowly embeds the TypeScript source of the repository:

* utils/getInstructions.ts   — manifest data model (Asset, Playlist, ApiResponse)
* utils/assetDownloader.ts   — AssetDownloader (downloadAsset, downloadAllAssets,
  generateSafeFilename, prepareAssetsForWebview, preparePlaylistsForCycling)
  and AssetCycler.isPlaylistActive
* utils/dateUtils (bundled with components/SignageWebview.tsx) — the standalone
  isPlaylistActive helper
* utils/initialization.ts    — DigitalSignageInitializer (prepareFinalResult,
  getDefaultPlaylist, validateResult) and initializeDigitalSignage

JavaScript effects are made explicit: network attempts are an oracle
(`FetchEnv`), thrown-and-caught errors are `Option String` data, timer waits
(the exponential backoff) are returned as a list of wait durations in seconds,
wall-clock readings are environment parameters, and `Date` parsing is an
uninterpreted parameter `parseDate : String → Int` (milliseconds since epoch).
JS numbers obtained from `parseInt` are modelled as `Option Int`, with `none`
standing for NaN.
-/

/-! ## JavaScript primitive helpers -/

/-- JS `String.prototype.includes(sub)` restricted to nonempty checks:
true iff `sub` occurs as a contiguous substring, on the char-list level. -/
def listContains (sub : List Char) : List Char → Bool
  | [] => sub.isEmpty
  | c :: rest => sub.isPrefixOf (c :: rest) || listContains sub rest

/-- JS `s.includes(sub)`. -/
def jsIncludes (s sub : String) : Bool :=
  listContains sub.data s.data

/-- JS `s.startsWith(pre)`. -/
def jsStartsWith (s pre : String) : Bool :=
  pre.data.isPrefixOf s.data

/-- ASCII lower-casing of one character (JS toLowerCase on the ASCII range
the extension table ever compares). -/
def jsToLowerChar (c : Char) : Char :=
  if c.toNat ≥ 65 && c.toNat ≤ 90 then Char.ofNat (c.toNat + 32) else c

/-- JS `s.toLowerCase()` on ASCII data. -/
def jsToLower (s : String) : String :=
  String.mk (s.data.map jsToLowerChar)

/-- Decimal digits prefix of a char list. -/
def takeDigits (l : List Char) : List Char :=
  l.takeWhile (fun c => c.isDigit)

/-- Value of a (digit-only) char list read in base 10. -/
def digitsToNat (l : List Char) : Nat :=
  l.foldl (fun acc c => acc * 10 + (c.toNat - 48)) 0

/-- JS `parseInt(s, 10)`: skip leading whitespace, read an optional sign and a
longest run of decimal digits; `none` models the NaN result when no digit is
found. -/
def jsParseInt (s : String) : Option Int :=
  let l := s.data.dropWhile (fun c => c == ' ' || c == '\t' || c == '\n' || c == '\r')
  match l with
  | '-' :: rest =>
      let d := takeDigits rest
      if d.isEmpty then none else some (-(digitsToNat d : Int))
  | '+' :: rest =>
      let d := takeDigits rest
      if d.isEmpty then none else some ((digitsToNat d : Int))
  | _ =>
      let d := takeDigits l
      if d.isEmpty then none else some ((digitsToNat d : Int))

/-- JS number addition on possibly-NaN values: NaN propagates. -/
def jsAdd (a b : Option Int) : Option Int :=
  match a, b with
  | some x, some y => some (x + y)
  | _, _ => none

/-- JS `path.join(dir, file)` as used by the downloader (both arguments plain,
no `..` handling is ever exercised). -/
def pathJoin (dir file : String) : String :=
  dir ++ "/" ++ file

/-! ## Data model (utils/getInstructions.ts) -/

/-- Wire-format asset descriptor. `playing_order` and `time` are strings on the
wire, exactly as in the TypeScript interface. -/
structure Asset where
  id : String
  name : String
  filepath : String
  filetype : String
  playing_order : String
  time : String
deriving Repr, DecidableEq

/-- Wire-format playlist descriptor. -/
structure Playlist where
  id : String
  name : String
  startdate : Option String
  enddate : Option String
  weekdays : Option String
  is_default : Bool
  assets : List Asset
deriving Repr, DecidableEq

/-- Wire-format manifest; `is_restarting` is the sole field of `functions`. -/
structure ApiResponse where
  is_restarting : Bool
  playlists : List Playlist
deriving Repr, DecidableEq

/-! ## Derived data (utils/assetDownloader.ts interfaces) -/

/-- Presentation-ready asset. `playing_order` and `displayTime` are JS numbers
produced by `parseInt`, hence `Option Int` with `none` for NaN. -/
structure WebviewAsset where
  id : String
  name : String
  filetype : String
  playing_order : Option Int
  displayTime : Option Int
  displayPath : String
  isStream : Bool
  originalPath : String
deriving Repr, DecidableEq

/-- Compiled playlist cycle. -/
structure PlaylistCycle where
  playlistId : String
  playlistName : String
  assets : List WebviewAsset
  totalCycleDuration : Option Int
  isDefault : Bool
  startDate : Option String
  endDate : Option String
deriving Repr, DecidableEq

/-- Outcome record of one asset fetch (interface DownloadResult). -/
structure DownloadResult where
  asset : Asset
  success : Bool
  error : Option String
  localPath : Option String
deriving Repr, DecidableEq

/-! ## Stream classification -/

/-- The classification expression repeated verbatim at every use site of the
source: `asset.filetype === "stream" || asset.filepath.includes(".m3u8")`. -/
def isStreamAsset (a : Asset) : Bool :=
  a.filetype == "stream" || jsIncludes a.filepath ".m3u8"

/-- Spec-worded classification for comparison (claim C2 reads the rule as
"source location ends with .m3u8"). -/
def claimIsStreamEndsWith (a : Asset) : Bool :=
  a.filetype == "stream" || List.isSuffixOf ".m3u8".data a.filepath.data

/-! ## Activity checks -/

/-- `AssetCycler.isPlaylistActive` (assetDownloader.ts): inactive when
`now < startDate` or `now > endDate`; `parseDate` stands for `new Date(s)`
and `now` for `new Date()`, both in milliseconds. -/
def cyclerIsPlaylistActive (parseDate : String → Int) (now : Int)
    (p : PlaylistCycle) : Bool :=
  if (match p.startDate with
      | some s => decide (now < parseDate s)
      | none => false) then false
  else if (match p.endDate with
      | some e => decide (now > parseDate e)
      | none => false) then false
  else true

/-- The standalone `isPlaylistActive(startDate?, endDate?)` helper from the
date-utility module: inactive when `new Date(startDate) > now` or
`new Date(endDate) <= now`. -/
def isPlaylistActive (parseDate : String → Int) (now : Int)
    (startDate endDate : Option String) : Bool :=
  if (match startDate with
      | some s => decide (parseDate s > now)
      | none => false) then false
  else if (match endDate with
      | some e => decide (parseDate e ≤ now)
      | none => false) then false
  else true

/-! ## Safe filename generation (AssetDownloader.generateSafeFilename) -/

/-- Characters the sanitizing regex class [a-zA-Z0-9.-] accepts. -/
def goodFilenameChar (c : Char) : Bool :=
  c.isAlphanum || c == '.' || c == '-'

/-- The global regex replace of [^a-zA-Z0-9.-] by an underscore, char by
char as the regex engine applies it. -/
def replaceBadChars : List Char → List Char
  | [] => []
  | c :: rest => (if goodFilenameChar c then c else '_') :: replaceBadChars rest

/-- AssetDownloader.getExtensionFromFiletype. -/
def getExtensionFromFiletype (filetype : String) : String :=
  match jsToLower filetype with
  | "stream" => ".m3u8"
  | "video" => ".mp4"
  | "audio" => ".mp3"
  | "image" => ".jpg"
  | "text" => ".txt"
  | _ => ".bin"

/-- Everything after the first scheme separator "://" of a URL. -/
def dropThroughSchemeSep : List Char → List Char
  | ':' :: '/' :: '/' :: rest => rest
  | _ :: rest => dropThroughSchemeSep rest
  | [] => []

/-- The pathname component of `new URL(s)`: from the first slash after the
host, up to the query or fragment. -/
def urlPathname (s : String) : String :=
  String.mk (((dropThroughSchemeSep s.data).dropWhile (fun c => !(c == '/'))).takeWhile
    (fun c => !(c == '?') && !(c == '#')))

/-- Accumulates the segment after the last separator: on a slash the
current segment restarts, otherwise the character is kept. -/
def lastSegAux (cur : List Char) : List Char → List Char
  | [] => cur.reverse
  | c :: rest => if c == '/' then lastSegAux [] rest else lastSegAux (c :: cur) rest

/-- Last element of `pathname.split("/")`. -/
def lastSegment (pathname : String) : String :=
  String.mk (lastSegAux [] pathname.data)

/-- The `urlFilename` computed inside generateSafeFilename. -/
def urlFilenameOf (filepath : String) : String :=
  lastSegment (urlPathname filepath)

/-- AssetDownloader.generateSafeFilename, from the source. -/
def generateSafeFilename (a : Asset) : String :=
  let filename0 := a.name
  let filename1 :=
    if jsStartsWith a.filepath "http" then
      let urlFilename := urlFilenameOf a.filepath
      if urlFilename != "" && jsIncludes urlFilename "." then urlFilename
      else filename0
    else filename0
  let filename2 := String.mk (replaceBadChars filename1.data)
  let filename3 :=
    if !(jsIncludes filename2 ".") then filename2 ++ getExtensionFromFiletype a.filetype
    else filename2
  a.id ++ "_" ++ filename3

/-- Claim C8 reads the sanitization step as STRIPPING (removing) every
character outside alphanumerics/dot/hyphen; this definition follows those
words for comparison with the source. -/
def claimSafeFilename (a : Asset) : String :=
  let base :=
    if jsStartsWith a.filepath "http" then
      let seg := urlFilenameOf a.filepath
      if seg != "" && jsIncludes seg "." then seg else a.name
    else a.name
  let stripped := String.mk (base.data.filter goodFilenameChar)
  let withExt :=
    if jsIncludes stripped "." then stripped
    else stripped ++ getExtensionFromFiletype a.filetype
  a.id ++ "_" ++ withExt

/-- The amended reading of claim C8: characters outside the class are
REPLACED by an underscore (written independently of the source, with a map
rather than the recursive regex pass). -/
def amendedSafeFilename (a : Asset) : String :=
  let base :=
    if jsStartsWith a.filepath "http" then
      let seg := urlFilenameOf a.filepath
      if seg != "" && jsIncludes seg "." then seg else a.name
    else a.name
  let sanitized := String.mk (base.data.map (fun c => if goodFilenameChar c then c else '_'))
  let withExt :=
    if jsIncludes sanitized "." then sanitized
    else sanitized ++ getExtensionFromFiletype a.filetype
  a.id ++ "_" ++ withExt

/-! ## Asset download (AssetDownloader.downloadAsset / downloadAllAssets) -/

/-- Network oracle: `attemptError a k` is the thrown error message of the
k-th (1-based) full-fetch attempt for asset `a`, or `none` when that attempt
succeeds; `probeOk` is the outcome of the header-only stream probe (its
failure is caught and logged inside the stream branch, so it can never
influence a result). -/
structure FetchEnv where
  attemptError : Asset → Nat → Option String
  probeOk : Asset → Bool

/-- The success record returned for a stream asset: original URL kept. -/
def streamSuccessResult (a : Asset) : DownloadResult :=
  { asset := a, success := true, error := none, localPath := some a.filepath }

/-- The success record for a downloaded file. -/
def downloadSuccessResult (dir : String) (a : Asset) : DownloadResult :=
  { asset := a, success := true, error := none,
    localPath := some (pathJoin dir (generateSafeFilename a)) }

/-- The failure record carrying an error message. -/
def failedResult (a : Asset) (msg : String) : DownloadResult :=
  { asset := a, success := false, error := some msg, localPath := none }

/-- The retry loop of downloadAsset. First Nat is the 1-based attempt
counter, second the number of attempts still allowed; the returned list
records the backoff waits (seconds) performed between attempts. The 0 case
is the unreachable fall-through return below the loop. -/
def downloadAssetGo (env : FetchEnv) (dir : String) (a : Asset) :
    Nat → Nat → DownloadResult × List Nat
  | _, 0 => (failedResult a "Unexpected error in retry loop", [])
  | attempt, remaining + 1 =>
    if isStreamAsset a then (streamSuccessResult a, [])
    else
      match env.attemptError a attempt with
      | none => (downloadSuccessResult dir a, [])
      | some msg =>
        if remaining == 0 then (failedResult a msg, [])
        else
          let r := downloadAssetGo env dir a (attempt + 1) remaining
          (r.1, 2 ^ attempt :: r.2)

/-- AssetDownloader.downloadAsset: runs the retry loop from attempt 1. All
exceptions of the source body are caught inside the loop, so the function
always returns a DownloadResult; the wait list makes the backoff observable. -/
def downloadAsset (env : FetchEnv) (dir : String) (a : Asset) (retries : Nat) :
    DownloadResult × List Nat :=
  downloadAssetGo env dir a 1 retries

/-- The flatMap of all playlists' assets, duplicates kept per membership. -/
def allAssetsOf (resp : ApiResponse) : List Asset :=
  (resp.playlists.map Playlist.assets).flatten

/-- AssetDownloader.downloadAllAssets: one downloadAsset call (retries = 3)
per membership occurrence, in flatMap order. -/
def downloadAllAssets (env : FetchEnv) (dir : String) (resp : ApiResponse) :
    List DownloadResult :=
  (allAssetsOf resp).map (fun a => (downloadAsset env dir a 3).1)

/-! ## Playlist compilation -/

/-- The JS sort comparator (a, b) => a.playing_order - b.playing_order, as a
total preorder. On assets whose keys both parsed it is exactly numeric ≤;
the NaN (none) rows are ordered first merely to keep the relation total and
transitive — JS leaves NaN comparator behavior unspecified, and every claim
below quantifies over parsed keys only. -/
def keyLE (a b : WebviewAsset) : Bool :=
  match a.playing_order, b.playing_order with
  | some x, some y => decide (x ≤ y)
  | none, _ => true
  | some _, none => false

/-- The comparator as a decidable relation, for the stable sort. -/
def keyRel (a b : WebviewAsset) : Prop := keyLE a b = true

instance : DecidableRel keyRel := fun a b => instDecidableEqBool (keyLE a b) true

instance : IsTotal WebviewAsset keyRel :=
  ⟨fun a b => by
    unfold keyRel keyLE
    rcases a.playing_order with _ | x <;> rcases b.playing_order with _ | y <;> simp <;> omega⟩

instance : IsTrans WebviewAsset keyRel :=
  ⟨fun a b c => by
    unfold keyRel keyLE
    rcases a.playing_order with _ | x <;> rcases b.playing_order with _ | y <;>
      rcases c.playing_order with _ | z <;> simp <;> omega⟩

/-- The WebviewAsset record built from one successful DownloadResult
(prepareAssetsForWebview map body); r.localPath! is modelled by getD. -/
def mkWebviewAssetFromResult (r : DownloadResult) : WebviewAsset :=
  { id := r.asset.id, name := r.asset.name, filetype := r.asset.filetype,
    playing_order := jsParseInt r.asset.playing_order,
    displayTime := jsParseInt r.asset.time,
    displayPath := if isStreamAsset r.asset then r.asset.filepath else r.localPath.getD "",
    isStream := isStreamAsset r.asset,
    originalPath := r.asset.filepath }

/-- AssetDownloader.prepareAssetsForWebview: successes only, mapped, then
stably sorted by playing_order (JS Array.prototype.sort is stable). -/
def prepareAssetsForWebview (results : List DownloadResult) : List WebviewAsset :=
  ((results.filter (fun r => r.success)).map mkWebviewAssetFromResult).insertionSort keyRel

/-- The WebviewAsset record built inside preparePlaylistsForCycling from a
playlist asset and its joined successful result. -/
def mkWebviewAssetFromPlaylistAsset (a : Asset) (r : DownloadResult) : WebviewAsset :=
  { id := a.id, name := a.name, filetype := a.filetype,
    playing_order := jsParseInt a.playing_order,
    displayTime := jsParseInt a.time,
    displayPath := if isStreamAsset a then a.filepath else r.localPath.getD "",
    isStream := isStreamAsset a,
    originalPath := a.filepath }

/-- The per-playlist map-to-null / filter-nonnull join of
preparePlaylistsForCycling, before sorting. -/
def resolvedPlaylistAssets (results : List DownloadResult) (p : Playlist) :
    List WebviewAsset :=
  p.assets.filterMap (fun a =>
    match results.find? (fun r => r.asset.id == a.id && r.success) with
    | none => none
    | some r => some (mkWebviewAssetFromPlaylistAsset a r))

/-- The sorted per-playlist asset sequence. -/
def sortedPlaylistAssets (results : List DownloadResult) (p : Playlist) :
    List WebviewAsset :=
  (resolvedPlaylistAssets results p).insertionSort keyRel

/-- The reduce((sum, asset) => sum + asset.displayTime, 0) total. -/
def cycleTotalDuration (assets : List WebviewAsset) : Option Int :=
  (assets.map WebviewAsset.displayTime).foldl jsAdd (some 0)

/-- One PlaylistCycle record of preparePlaylistsForCycling, before the
empty-cycle filter. -/
def compileCycle (results : List DownloadResult) (p : Playlist) : PlaylistCycle :=
  { playlistId := p.id, playlistName := p.name,
    assets := sortedPlaylistAssets results p,
    totalCycleDuration := cycleTotalDuration (sortedPlaylistAssets results p),
    isDefault := p.is_default, startDate := p.startdate, endDate := p.enddate }

/-- AssetDownloader.preparePlaylistsForCycling. -/
def preparePlaylistsForCycling (resp : ApiResponse) (results : List DownloadResult) :
    List PlaylistCycle :=
  (resp.playlists.map (compileCycle results)).filter (fun c => decide (c.assets.length > 0))

/-! ## Orchestrator (utils/initialization.ts) -/

/-- Summary statistics of prepareFinalResult. -/
structure InitStats where
  totalAssets : Nat
  successfulDownloads : Nat
  failedDownloads : Nat
  streamsKept : Nat
  totalPlaylists : Nat
  initializationTime : Int
deriving Repr, DecidableEq

/-- interface InitializationResult. -/
structure InitializationResult where
  success : Bool
  deviceName : Option String
  apiResponse : Option ApiResponse
  downloadResults : Option (List DownloadResult)
  playlistCycles : Option (List PlaylistCycle)
  defaultPlaylist : Option PlaylistCycle
  error : Option String
  stats : Option InitStats
deriving Repr, DecidableEq

/-- Environment of one initialization run: the network oracle, the outcome
of the directory clear (an error message when it rejects), the device-name
probe result (failures already swallowed to none), the manifest fetch
outcome, and the wall-clock elapsed time read at the end. -/
structure InitEnv where
  fetchEnv : FetchEnv
  assetsDir : String
  clearError : Option String
  deviceName : Option String
  apiOutcome : Except String ApiResponse
  elapsed : Int

/-- The catch-all failed InitializationResult of initialize. -/
def failureResult (msg : String) : InitializationResult :=
  { success := false, deviceName := none, apiResponse := none, downloadResults := none,
    playlistCycles := none, defaultPlaylist := none, error := some msg, stats := none }

/-- DigitalSignageInitializer.prepareFinalResult. -/
def prepareFinalResult (deviceName : Option String) (resp : ApiResponse)
    (downloadResults : List DownloadResult) (playlistCycles : List PlaylistCycle)
    (elapsed : Int) : InitializationResult :=
  { success := true,
    deviceName := deviceName,
    apiResponse := some resp,
    downloadResults := some downloadResults,
    playlistCycles := some playlistCycles,
    defaultPlaylist := playlistCycles.find? (fun p => p.isDefault),
    error := none,
    stats := some
      { totalAssets := downloadResults.length,
        successfulDownloads := (downloadResults.filter (fun r => r.success)).length,
        failedDownloads := (downloadResults.filter (fun r => !r.success)).length,
        streamsKept := (downloadResults.filter (fun r => r.success && isStreamAsset r.asset)).length,
        totalPlaylists := playlistCycles.length,
        initializationTime := elapsed } }

/-- DigitalSignageInitializer.initialize: the staged pipeline with its
top-level catch turning any staged throw into a failed result. -/
def initializeCore (env : InitEnv) : InitializationResult :=
  match env.clearError with
  | some msg => failureResult msg
  | none =>
    match env.apiOutcome with
    | .error msg => failureResult ("API fetch failed: " ++ msg)
    | .ok resp =>
      let downloadResults := downloadAllAssets env.fetchEnv env.assetsDir resp
      let playlistCycles := preparePlaylistsForCycling resp downloadResults
      prepareFinalResult env.deviceName resp downloadResults playlistCycles env.elapsed

/-- DigitalSignageInitializer.getDefaultPlaylist: first default-flagged
cycle, else the first cycle, else null. -/
def getDefaultPlaylist (cycles : List PlaylistCycle) : Option PlaylistCycle :=
  match cycles.find? (fun p => p.isDefault) with
  | some p => some p
  | none => cycles.head?

/-- DigitalSignageInitializer.validateResult. -/
def validateResult (r : InitializationResult) : Bool :=
  if !r.success then false
  else
    match r.playlistCycles with
    | none => false
    | some cycles =>
      if cycles.isEmpty then false
      else
        match getDefaultPlaylist cycles with
        | none => false
        | some d => !d.assets.isEmpty

/-- initializeDigitalSignage: initialize, then reject results failing
validateResult. -/
def initializeDigitalSignage (env : InitEnv) : InitializationResult :=
  let result := initializeCore env
  if validateResult result then result
  else failureResult "Initialization validation failed"

/-! ## Concrete fixtures used by the claim theorems and witnesses -/

/-- Playlist used for claim C1: no start bound and one end timestamp. -/
def c1Playlist : PlaylistCycle :=
  { playlistId := "p1", playlistName := "Lobby", assets := [],
    totalCycleDuration := some 0, isDefault := false,
    startDate := none, endDate := some "2025-01-01T00:00:00Z" }

/-- Asset whose source location contains but does not end with ".m3u8". -/
def c2Asset : Asset :=
  { id := "77", name := "clip", filepath := "http://h/a.m3u8?token=1",
    filetype := "video", playing_order := "3", time := "30" }

/-- Stream asset for the C4 witness. -/
def c4Asset : Asset :=
  { id := "s1", name := "live", filepath := "https://h/live/feed.m3u8",
    filetype := "stream", playing_order := "2", time := "0" }

/-- Oracle whose probe answers 404 and whose full fetches all fail. -/
def c4Env : FetchEnv :=
  { attemptError := fun _ _ => some "HTTP error! status: 404",
    probeOk := fun _ => false }

/-- Asset used by the C7 witness. -/
def c7Asset : Asset :=
  { id := "a1", name := "poster", filepath := "http://h/poster.jpg",
    filetype := "image", playing_order := "1", time := "10" }

/-- Playlist used by the C7 witness. -/
def c7Playlist : Playlist :=
  { id := "p1", name := "Main", startdate := none, enddate := none,
    weekdays := none, is_default := true, assets := [c7Asset] }

/-- Manifest used by the C7 witness. -/
def c7Resp : ApiResponse := { is_restarting := false, playlists := [c7Playlist] }

/-- Fetch results used by the C7 witness. -/
def c7Results : List DownloadResult :=
  [{ asset := c7Asset, success := true, error := none,
     localPath := some "./assets/main/a1_poster.jpg" }]

/-- Non-stream asset for the C5 witness. -/
def c5Asset : Asset :=
  { id := "d1", name := "doc", filepath := "http://h/files/doc.pdf",
    filetype := "text", playing_order := "4", time := "15" }

/-- Oracle for the C5 witness: attempt i fails with message "err i". -/
def c5EnvFail : FetchEnv :=
  { attemptError := fun _ i => some ("err " ++ toString i),
    probeOk := fun _ => true }

/-- Oracle for the C5 witness success case: attempt 1 fails, attempt 2
succeeds. -/
def c5EnvRecover : FetchEnv :=
  { attemptError := fun _ i => if i == 1 then some "timeout" else none,
    probeOk := fun _ => true }

/-- Asset A of the C3 witness fixture (ordering key 2). -/
def c3AssetA : Asset :=
  { id := "x1", name := "first", filepath := "http://h/a.jpg",
    filetype := "image", playing_order := "2", time := "5" }

/-- Asset B of the C3 witness fixture (ordering key 1). -/
def c3AssetB : Asset :=
  { id := "x2", name := "second", filepath := "http://h/b.jpg",
    filetype := "image", playing_order := "1", time := "7" }

/-- Playlist of the C3 witness fixture. -/
def c3Playlist : Playlist :=
  { id := "pl3", name := "Two", startdate := none, enddate := none,
    weekdays := none, is_default := false, assets := [c3AssetA, c3AssetB] }

/-- Manifest of the C3 witness fixture. -/
def c3Resp : ApiResponse := { is_restarting := false, playlists := [c3Playlist] }

/-- Fetch results of the C3 witness fixture: both assets succeeded. -/
def c3Results : List DownloadResult :=
  [{ asset := c3AssetA, success := true, error := none,
     localPath := some "./assets/main/x1_a.jpg" },
   { asset := c3AssetB, success := true, error := none,
     localPath := some "./assets/main/x2_b.jpg" }]

/-- WebviewAsset of the C6 witness: the first fixture result, compiled. -/
def c6Wa : WebviewAsset := mkWebviewAssetFromResult
  { asset := c3AssetA, success := true, error := none,
    localPath := some "./assets/main/x1_a.jpg" }

/-- Asset whose name holds a space, for the C8 counterexample. -/
def c8Asset : Asset :=
  { id := "a1", name := "a b", filepath := "local", filetype := "text",
    playing_order := "1", time := "5" }

/-- First colliding asset: its underscore-bearing sanitized name aligns
with the second asset's id prefix. -/
def c8CollA : Asset :=
  { id := "a", name := "b_x.txt", filepath := "local", filetype := "text",
    playing_order := "1", time := "5" }

/-- Second colliding asset: distinct id containing an underscore. -/
def c8CollB : Asset :=
  { id := "a_b", name := "x", filepath := "local", filetype := "text",
    playing_order := "1", time := "5" }

/-- Environment of the C9 witness: the directory clear and manifest fetch
succeed, but the manifest holds zero playlists, so the pipeline succeeds
internally with zero PlaylistCycles. -/
def c9Env : InitEnv :=
  { fetchEnv := { attemptError := fun _ _ => none, probeOk := fun _ => true },
    assetsDir := "./assets/main",
    clearError := none,
    deviceName := some "tv-1",
    apiOutcome := Except.ok { is_restarting := false, playlists := [] },
    elapsed := 42 }

/-! ## General lemmas about the embedded operations -/

/-- Substring containment is equivalent to an append decomposition. -/
theorem listContains_iff (sub : List Char) :
    ∀ l : List Char, listContains sub l = true ↔ ∃ p q, l = p ++ sub ++ q := by
  intro l
  induction l with
  | nil =>
    simp only [listContains, List.isEmpty_iff]
    constructor
    · rintro rfl
      exact ⟨[], [], rfl⟩
    · rintro ⟨p, q, h⟩
      rcases List.append_eq_nil.mp (List.append_eq_nil.mp h.symm).1 with ⟨-, h2⟩
      exact h2
  | cons c rest ih =>
    simp only [listContains, Bool.or_eq_true, List.isPrefixOf_iff_prefix, ih]
    constructor
    · rintro (⟨t, ht⟩ | ⟨p, q, hq⟩)
      · exact ⟨[], t, by simp [ht.symm]⟩
      · exact ⟨c :: p, q, by simp [hq]⟩
    · rintro ⟨p, q, hpq⟩
      cases p with
      | nil => exact Or.inl ⟨q, by simpa using hpq.symm⟩
      | cons c0 p0 =>
        simp only [List.cons_append, List.cons.injEq] at hpq
        exact Or.inr ⟨p0, q, hpq.2⟩

/-- String-level version of the decomposition. -/
theorem jsIncludes_iff (s sub : String) :
    jsIncludes s sub = true ↔ ∃ pre post : String, s = pre ++ sub ++ post := by
  unfold jsIncludes
  rw [listContains_iff]
  constructor
  · rintro ⟨p, q, h⟩
    refine ⟨⟨p⟩, ⟨q⟩, ?_⟩
    apply String.ext
    simpa using h
  · rintro ⟨pre, post, h⟩
    exact ⟨pre.data, post.data, by simp [h]⟩

/-- The asset field of any downloadAsset outcome is the asset itself. -/
theorem downloadAssetGo_asset (env : FetchEnv) (dir : String) (a : Asset) :
    ∀ rem attempt, (downloadAssetGo env dir a attempt rem).1.asset = a := by
  intro rem
  induction rem with
  | zero => intro attempt; rfl
  | succ m ih =>
    intro attempt
    rw [downloadAssetGo]
    by_cases hs : isStreamAsset a
    · simp [hs, streamSuccessResult]
    · simp only [hs, Bool.false_eq_true, if_false]
      cases env.attemptError a attempt with
      | none => simp [downloadSuccessResult]
      | some msg =>
        by_cases hm : m == 0
        · simp [hm, failedResult]
        · simp [hm, ih (attempt + 1)]

/-- keyLE is transitive. -/
theorem keyLE_trans (a b c : WebviewAsset) :
    keyLE a b → keyLE b c → keyLE a c := by
  unfold keyLE
  cases ha : a.playing_order <;> cases hb : b.playing_order <;>
    cases hc : c.playing_order <;> simp <;> omega

/-- keyLE is total. -/
theorem keyLE_total (a b : WebviewAsset) : keyLE a b || keyLE b a := by
  unfold keyLE
  cases ha : a.playing_order <;> cases hb : b.playing_order <;> simp <;> omega

/-- Stability of the embedded sort, stated as the classical filter
characterization: for every ordering-key value, the subsequence of assets
carrying that key is unchanged by the sort. -/
theorem insertionSort_filter_key (l : List WebviewAsset) (k : Option Int) :
    (l.insertionSort keyRel).filter (fun x => x.playing_order == k)
      = l.filter (fun x => x.playing_order == k) := by
  have hmemkey : ∀ x ∈ l.filter (fun x => x.playing_order == k), x.playing_order = k := by
    intro x hx
    exact beq_iff_eq.mp (List.mem_filter.mp hx).2
  have hpw : (l.filter (fun x => x.playing_order == k)).Pairwise keyRel := by
    apply List.pairwise_of_forall_mem_list
    intro x hx y hy
    have hxk := hmemkey x hx
    have hyk := hmemkey y hy
    unfold keyRel keyLE
    rw [hxk, hyk]
    cases k <;> simp
  have hsub : List.Sublist (l.filter (fun x => x.playing_order == k))
      (l.insertionSort keyRel) :=
    List.sublist_insertionSort hpw (List.filter_sublist l)
  have hlen : ((l.insertionSort keyRel).filter (fun x => x.playing_order == k)).length
      = (l.filter (fun x => x.playing_order == k)).length :=
    ((List.perm_insertionSort keyRel l).filter _).length_eq
  have hself : (l.filter (fun x => x.playing_order == k)).filter
      (fun x => x.playing_order == k) = l.filter (fun x => x.playing_order == k) :=
    List.filter_eq_self.mpr (fun a ha => (List.mem_filter.mp ha).2)
  have hsub2 : List.Sublist (l.filter (fun x => x.playing_order == k))
      ((l.insertionSort keyRel).filter (fun x => x.playing_order == k)) := by
    have h3 := hsub.filter (fun x => x.playing_order == k)
    rwa [hself] at h3
  exact (hsub2.eq_of_length hlen.symm).symm

/-- Folding jsAdd over a NaN-free list is plain integer summation. -/
theorem foldl_jsAdd_some (l : List (Option Int)) :
    (∀ x ∈ l, x.isSome) → ∀ acc : Int,
      l.foldl jsAdd (some acc) = some (acc + (l.map (fun x => x.getD 0)).sum) := by
  induction l with
  | nil => intro _ acc; simp
  | cons x rest ih =>
    intro h acc
    rcases Option.isSome_iff_exists.mp (h x (List.mem_cons_self x rest)) with ⟨v, hv⟩
    rw [List.foldl_cons, hv]
    have hstep : jsAdd (some acc) (some v) = some (acc + v) := rfl
    rw [hstep, ih (fun y hy => h y (List.mem_cons_of_mem x hy)) (acc + v)]
    simp [hv, Int.add_assoc]

/-! ## Claim C1 — end-boundary semantics of the activity checks -/

/-- C1 counterexample: with the date parser sending the end timestamp to 100
and the clock also at 100 — a moment exactly equal to the end timestamp —
the Cycle Scheduler's internal activity check still answers true (its test
is now > end), refuting the claim that every activity check in the program
answers false at the end boundary. -/
theorem C1_counterexample :
    cyclerIsPlaylistActive (fun _ => (100 : Int)) 100 c1Playlist = true := by
  decide

/-- C1 (amended): at a moment exactly equal to the end timestamp the
standalone isPlaylistActive helper reports inactive (half-open window
[start, end)), but the Cycle Scheduler's internal check still reports
active (closed window [start, end]): the two checks disagree at the
boundary. -/
theorem C1_amended (parseDate : String → Int) (now : Int) (s? : Option String)
    (e : String) (he : parseDate e = now) :
    isPlaylistActive parseDate now s? (some e) = false ∧
    ∀ p : PlaylistCycle, p.startDate = none → p.endDate = some e →
      cyclerIsPlaylistActive parseDate now p = true := by
  constructor
  · unfold isPlaylistActive
    cases s? with
    | none => simp [he]
    | some s =>
      by_cases hstart : parseDate s > now
      · simp [hstart]
      · simp [hstart, he]
  · intro p hsd hed
    unfold cyclerIsPlaylistActive
    rw [hsd, hed]
    simp [he]

/-- C1 witness: the amended statement applied at parse value 0 and clock 0. -/
theorem C1_witness :
    isPlaylistActive (fun _ => (0 : Int)) 0 none (some "2025-01-01T00:00:00Z") = false ∧
    cyclerIsPlaylistActive (fun _ => (0 : Int)) 0 c1Playlist = true := by
  have h := C1_amended (fun _ => (0 : Int)) 0 none "2025-01-01T00:00:00Z" rfl
  exact ⟨h.1, h.2 c1Playlist rfl rfl⟩

/-! ## Claim C2 — stream classification -/

/-- C2 counterexample: the code classifies this asset as a stream (its
source location CONTAINS ".m3u8") even though the location does not END
with ".m3u8" and the file type is not "stream"; the claimed iff with an
ends-with test is therefore false at this input. -/
theorem C2_counterexample :
    isStreamAsset c2Asset = true ∧ claimIsStreamEndsWith c2Asset = false := by
  decide

/-- C2 (amended): the stream classification used throughout the program is
true iff the declared file type equals "stream" OR the source location
contains ".m3u8" anywhere (append decomposition), either condition alone
sufficing. -/
theorem C2_amended (a : Asset) :
    isStreamAsset a = true ↔
      a.filetype = "stream" ∨ ∃ pre post : String, a.filepath = pre ++ ".m3u8" ++ post := by
  unfold isStreamAsset
  rw [Bool.or_eq_true, beq_iff_eq, jsIncludes_iff]

/-! ## Claim C4 — stream FetchResults ignore the probe -/

/-- C4: a stream-classified asset always comes back successful with its
original source location as localPath, for every probe outcome and every
attempt oracle (the header-only probe failure is caught and only logged). -/
theorem C4_theorem (env : FetchEnv) (dir : String) (a : Asset) (n : Nat)
    (hn : 1 ≤ n) (hs : isStreamAsset a = true) :
    downloadAsset env dir a n
      = ({ asset := a, success := true, error := none,
           localPath := some a.filepath }, []) := by
  cases n with
  | zero => omega
  | succ m =>
    rw [downloadAsset, downloadAssetGo]
    simp [hs, streamSuccessResult]

/-- C4 witness: under a 404-answering probe the stream asset is still a
successful FetchResult carrying its original URL. -/
theorem C4_witness :
    downloadAsset c4Env "./assets/main" c4Asset 3
      = ({ asset := c4Asset, success := true, error := none,
           localPath := some c4Asset.filepath }, []) :=
  C4_theorem c4Env "./assets/main" c4Asset 3 (by decide) (by decide)

/-! ## Claim C7 — no empty PlaylistCycle is ever exposed -/

/-- C7: every PlaylistCycle returned by the compiler has at least one asset;
a playlist whose assets all failed to resolve yields no cycle at all. -/
theorem C7_theorem (resp : ApiResponse) (results : List DownloadResult) :
    ∀ c ∈ preparePlaylistsForCycling resp results, c.assets ≠ [] := by
  intro c hc
  have h := (List.mem_filter.mp hc).2
  have hlen : 0 < c.assets.length := by simpa using h
  exact List.length_pos.mp hlen

/-- C7 witness: the compiled cycle of the one-playlist manifest is a member
of the compiler output and is nonempty. -/
theorem C7_witness : (compileCycle c7Results c7Playlist).assets ≠ [] :=
  C7_theorem c7Resp c7Results (compileCycle c7Results c7Playlist) (by decide)

/-! ## Claim C5 — bounded retry, exponential backoff, failure as data -/

/-- When every attempt from `attempt` for `rem` rounds fails, the loop
returns the last round's error message as a failed result and waits
2^attempt, 2^(attempt+1), … seconds between consecutive attempts. -/
theorem downloadAssetGo_allFail (env : FetchEnv) (dir : String) (a : Asset)
    (hs : isStreamAsset a = false) (e : Nat → String) :
    ∀ rem, 1 ≤ rem → ∀ attempt,
      (∀ i, attempt ≤ i → i < attempt + rem → env.attemptError a i = some (e i)) →
      downloadAssetGo env dir a attempt rem
        = (failedResult a (e (attempt + rem - 1)),
           (List.range' attempt (rem - 1)).map (fun k => 2 ^ k)) := by
  intro rem
  induction rem with
  | zero => intro h; omega
  | succ m ih =>
    intro _ attempt hf
    rw [downloadAssetGo]
    simp only [hs, Bool.false_eq_true, if_false]
    rw [hf attempt Nat.le.refl (by omega)]
    cases m with
    | zero => simp
    | succ m2 =>
      have hne : ((m2 + 1 : Nat) == 0) = false := by simp
      rw [hne]
      simp only [Bool.false_eq_true, if_false]
      rw [ih (by omega) (attempt + 1) (fun i h1 h2 => hf i (by omega) (by omega))]
      have h1 : attempt + 1 + (m2 + 1) - 1 = attempt + (m2 + 1 + 1) - 1 := by omega
      have h2 : m2 + 1 + 1 - 1 = (m2 + 1 - 1) + 1 := by omega
      rw [h1, h2, List.range'_succ]
      simp

/-- When the k-th attempt succeeds after failures on attempts
`attempt ≤ i < k`, the loop returns the download success and the waits are
2^attempt, …, 2^(k-1). -/
theorem downloadAssetGo_successAt (env : FetchEnv) (dir : String) (a : Asset)
    (hs : isStreamAsset a = false) :
    ∀ rem attempt k, attempt ≤ k → k < attempt + rem →
      env.attemptError a k = none →
      (∀ i, attempt ≤ i → i < k → env.attemptError a i ≠ none) →
      downloadAssetGo env dir a attempt rem
        = (downloadSuccessResult dir a,
           (List.range' attempt (k - attempt)).map (fun j => 2 ^ j)) := by
  intro rem
  induction rem with
  | zero => intro attempt k h1 h2; omega
  | succ m ih =>
    intro attempt k hak hkr hok hf
    rw [downloadAssetGo]
    simp only [hs, Bool.false_eq_true, if_false]
    rcases Nat.eq_or_lt_of_le hak with rfl | hlt
    · rw [hok]
      simp [Nat.sub_self]
    · rcases hcur : env.attemptError a attempt with _ | msg
      · exact absurd hcur (hf attempt Nat.le.refl hlt)
      · have hm : m ≠ 0 := by omega
        have hne : (m == 0) = false := by simpa using hm
        rw [hne]
        simp only [Bool.false_eq_true, if_false]
        rw [ih (attempt + 1) k (by omega) (by omega) hok
          (fun i hi1 hi2 => hf i (by omega) hi2)]
        have h2 : k - attempt = (k - (attempt + 1)) + 1 := by omega
        rw [h2, List.range'_succ]
        simp

/-- C5: for every non-stream asset and retry bound n ≥ 1, downloadAsset
always returns a result rather than raising: when all n attempts fail, the
result is a failure carrying the LAST attempt's error message and the loop
waited 2^1, …, 2^(n-1) seconds between attempts; when some attempt k ≤ n
succeeds after k-1 failures, the result is a success preceded by waits
2^1, …, 2^(k-1). -/
theorem C5_theorem (env : FetchEnv) (dir : String) (a : Asset) (n : Nat)
    (hn : 1 ≤ n) (hs : isStreamAsset a = false) (e : Nat → String) :
    ((∀ i, 1 ≤ i → i ≤ n → env.attemptError a i = some (e i)) →
      downloadAsset env dir a n
        = ({ asset := a, success := false, error := some (e n), localPath := none },
           (List.range' 1 (n - 1)).map (fun k => 2 ^ k))) ∧
    (∀ k, 1 ≤ k → k ≤ n → env.attemptError a k = none →
      (∀ i, 1 ≤ i → i < k → env.attemptError a i ≠ none) →
      downloadAsset env dir a n
        = ({ asset := a, success := true, error := none,
             localPath := some (pathJoin dir (generateSafeFilename a)) },
           (List.range' 1 (k - 1)).map (fun j => 2 ^ j))) := by
  constructor
  · intro hf
    rw [downloadAsset,
      downloadAssetGo_allFail env dir a hs e n hn 1 (fun i h1 h2 => hf i h1 (by omega))]
    have h1 : 1 + n - 1 = n := by omega
    rw [h1]
    rfl
  · intro k hk1 hkn hok hf
    rw [downloadAsset, downloadAssetGo_successAt env dir a hs n 1 k hk1 (by omega) hok hf]
    have h1 : k - 1 = k - 1 := rfl
    rfl

/-- C5 witness: with 3 attempts all failing, the result carries "err 3"
and the waits are [2, 4]; with a failure then a success, the result is the
download success after a single wait of [2]. -/
theorem C5_witness :
    (downloadAsset c5EnvFail "./assets/main" c5Asset 3
      = ({ asset := c5Asset, success := false, error := some "err 3", localPath := none },
         [2, 4])) ∧
    (downloadAsset c5EnvRecover "./assets/main" c5Asset 3
      = ({ asset := c5Asset, success := true, error := none,
           localPath := some (pathJoin "./assets/main" (generateSafeFilename c5Asset)) },
         [2])) := by
  constructor
  · have h := (C5_theorem c5EnvFail "./assets/main" c5Asset 3 (by decide) (by decide)
      (fun i => "err " ++ toString i)).1 (fun i h1 h2 => rfl)
    rw [h]
    rfl
  · have h := (C5_theorem c5EnvRecover "./assets/main" c5Asset 3 (by decide) (by decide)
      (fun i => "")).2 2 (by decide) (by decide) rfl
      (fun i h1 h2 => by interval_cases i <;> simp [c5EnvRecover])
    rw [h]
    rfl

/-! ## Claim C3 — sortedness, stability, exact totals -/

/-- Every member of a compiled (sorted) playlist sequence is built by
mkWebviewAssetFromPlaylistAsset from some asset of that playlist. -/
theorem mem_sortedPlaylistAssets (results : List DownloadResult) (p : Playlist)
    (x : WebviewAsset) (hx : x ∈ sortedPlaylistAssets results p) :
    ∃ a ∈ p.assets, ∃ r : DownloadResult,
      x = mkWebviewAssetFromPlaylistAsset a r := by
  unfold sortedPlaylistAssets at hx
  rw [List.mem_insertionSort] at hx
  unfold resolvedPlaylistAssets at hx
  rw [List.mem_filterMap] at hx
  rcases hx with ⟨a, ha, hfa⟩
  rcases hr : results.find? (fun r => r.asset.id == a.id && r.success) with _ | r
  · rw [hr] at hfa
    simp at hfa
  · rw [hr] at hfa
    simp only [Option.some.injEq] at hfa
    exact ⟨a, ha, r, hfa.symm⟩

/-- C3: each compiled PlaylistCycle's asset sequence is sorted
non-decreasing by the numeric ordering key; it is a stable sort of the
playlist's resolved membership sequence (for every key value, the
subsequence carrying that key is untouched, so ties keep their original
relative order); and when the manifest display durations all parse,
totalCycleDuration is exactly the sum of member display durations. -/
theorem C3_theorem (resp : ApiResponse) (results : List DownloadResult)
    (ht : ∀ p ∈ resp.playlists, ∀ a ∈ p.assets, (jsParseInt a.time).isSome) :
    ∀ c ∈ preparePlaylistsForCycling resp results,
      (List.Pairwise (fun x y => ∀ i j : Int,
          x.playing_order = some i → y.playing_order = some j → i ≤ j) c.assets)
      ∧ (∃ p ∈ resp.playlists, c = compileCycle results p ∧
          ∀ k : Option Int,
            c.assets.filter (fun x => x.playing_order == k)
              = (resolvedPlaylistAssets results p).filter (fun x => x.playing_order == k))
      ∧ c.totalCycleDuration
          = some ((c.assets.map (fun x => x.displayTime.getD 0)).sum) := by
  intro c hc
  have hc2 := (List.mem_filter.mp hc).1
  rcases List.mem_map.mp hc2 with ⟨p, hp, hcp⟩
  subst hcp
  refine ⟨?_, ⟨p, hp, rfl, ?_⟩, ?_⟩
  · have hsorted := List.sorted_insertionSort keyRel (resolvedPlaylistAssets results p)
    refine hsorted.imp ?_
    intro x y hxy i j hi hj
    unfold keyRel keyLE at hxy
    rw [hi, hj] at hxy
    exact of_decide_eq_true hxy
  · intro k
    exact insertionSort_filter_key (resolvedPlaylistAssets results p) k
  · have hmem : ∀ x ∈ (sortedPlaylistAssets results p).map WebviewAsset.displayTime,
        x.isSome := by
      intro x hx
      rcases List.mem_map.mp hx with ⟨y, hy, hxy⟩
      rcases mem_sortedPlaylistAssets results p y hy with ⟨a, ha, r, hya⟩
      rw [← hxy, hya]
      simpa [mkWebviewAssetFromPlaylistAsset] using ht p hp a ha
    have h := foldl_jsAdd_some _ hmem 0
    show cycleTotalDuration (sortedPlaylistAssets results p) = _
    unfold cycleTotalDuration
    rw [h]
    simp only [List.map_map, Function.comp_def, Int.zero_add]
    rfl

/-- C3 witness: for the two-asset fixture the compiled cycle's total is
exactly 5 + 7 = 12 seconds. -/
theorem C3_witness :
    (compileCycle c3Results c3Playlist).totalCycleDuration = some 12 := by
  have h := C3_theorem c3Resp c3Results (by decide)
    (compileCycle c3Results c3Playlist) (by decide)
  rw [h.2.2]
  rfl

/-! ## Claim C6 — WebviewAsset invariants -/

/-- C6: every WebviewAsset produced by either compiler entry point carries a
parsed (non-NaN) display duration that is nonnegative and a parsed integer
ordering key, whenever the manifest data conforms to the data model
(durations parse to integers ≥ 0, ordering keys parse to integers). -/
theorem C6_theorem (resp : ApiResponse) (results : List DownloadResult)
    (h1 : ∀ r ∈ results, (jsParseInt r.asset.time).isSome
        ∧ 0 ≤ (jsParseInt r.asset.time).getD 0
        ∧ (jsParseInt r.asset.playing_order).isSome)
    (h2 : ∀ p ∈ resp.playlists, ∀ a ∈ p.assets, (jsParseInt a.time).isSome
        ∧ 0 ≤ (jsParseInt a.time).getD 0
        ∧ (jsParseInt a.playing_order).isSome) :
    (∀ wa ∈ prepareAssetsForWebview results,
        wa.displayTime.isSome ∧ 0 ≤ wa.displayTime.getD 0 ∧ wa.playing_order.isSome)
    ∧ (∀ c ∈ preparePlaylistsForCycling resp results, ∀ wa ∈ c.assets,
        wa.displayTime.isSome ∧ 0 ≤ wa.displayTime.getD 0 ∧ wa.playing_order.isSome) := by
  constructor
  · intro wa hwa
    unfold prepareAssetsForWebview at hwa
    rw [List.mem_insertionSort, List.mem_map] at hwa
    rcases hwa with ⟨r, hr, hwr⟩
    have hr1 := h1 r (List.mem_filter.mp hr).1
    rw [← hwr]
    simpa [mkWebviewAssetFromResult] using hr1
  · intro c hc wa hwa
    have hc2 := (List.mem_filter.mp hc).1
    rcases List.mem_map.mp hc2 with ⟨p, hp, hcp⟩
    rw [← hcp] at hwa
    rcases mem_sortedPlaylistAssets results p wa hwa with ⟨a, ha, r, hwar⟩
    have h := h2 p hp a ha
    rw [hwar]
    simpa [mkWebviewAssetFromPlaylistAsset] using h

/-- C6 witness: the compiled fixture asset has a parsed nonnegative display
duration and a parsed ordering key. -/
theorem C6_witness :
    c6Wa.displayTime.isSome ∧ 0 ≤ c6Wa.displayTime.getD 0 ∧ c6Wa.playing_order.isSome :=
  (C6_theorem c3Resp c3Results (by decide) (by decide)).1 c6Wa (by decide)

/-! ## Claim C8 — safe filename construction -/

/-- The regex pass is a pointwise character replacement. -/
theorem replaceBadChars_eq_map (l : List Char) :
    replaceBadChars l = l.map (fun c => if goodFilenameChar c then c else '_') := by
  induction l with
  | nil => rfl
  | cons c rest ih => simp [replaceBadChars, ih]

/-- An underscore-free prefix before the first underscore is determined. -/
theorem append_underscore_inj :
    ∀ x y u v : List Char, '_' ∉ x → '_' ∉ y →
      x ++ '_' :: u = y ++ '_' :: v → x = y := by
  intro x
  induction x with
  | nil =>
    intro y u v _ hy h
    cases y with
    | nil => rfl
    | cons d y2 =>
      simp only [List.nil_append, List.cons_append, List.cons.injEq] at h
      exact absurd (h.1 ▸ List.mem_cons_self d y2) (h.1 ▸ hy)
  | cons c x2 ih =>
    intro y u v hx hy h
    cases y with
    | nil =>
      simp only [List.cons_append, List.nil_append, List.cons.injEq] at h
      exact absurd (List.mem_cons_self c x2) (h.1 ▸ hx)
    | cons d y2 =>
      simp only [List.cons_append, List.cons.injEq] at h
      have hx2 : '_' ∉ x2 := fun hm => hx (List.mem_cons_of_mem c hm)
      have hy2 : '_' ∉ y2 := fun hm => hy (List.mem_cons_of_mem d hm)
      rw [h.1, ih y2 u v hx2 hy2 h.2]

/-- The extension-append step written with a negated test (as in the code)
equals the positively-tested form (as in the amended claim). -/
theorem appendExtIfNoDot (s ext : String) :
    (if (!jsIncludes s ".") = true then s ++ ext else s)
      = (if jsIncludes s "." = true then s else s ++ ext) := by
  cases h : jsIncludes s "." <;> simp [h]

/-- The generated filename always has the shape id ++ "_" ++ rest. -/
theorem generateSafeFilename_shape (a : Asset) :
    ∃ rest : String, generateSafeFilename a = a.id ++ "_" ++ rest :=
  ⟨_, rfl⟩

/-- C8 counterexample: (1) the code REPLACES the space of "a b" with an
underscore ("a1_a_b.txt") where the claimed stripping would delete it
("a1_ab.txt"); (2) two assets with distinct identifiers ("a" and "a_b")
nevertheless collide on the same stored filename, refuting the claimed
unconditional collision-freedom. -/
theorem C8_counterexample :
    (generateSafeFilename c8Asset = "a1_a_b.txt"
      ∧ claimSafeFilename c8Asset = "a1_ab.txt"
      ∧ generateSafeFilename c8Asset ≠ claimSafeFilename c8Asset)
    ∧ (c8CollA.id ≠ c8CollB.id
      ∧ generateSafeFilename c8CollA = generateSafeFilename c8CollB) := by
  refine ⟨⟨rfl, rfl, by decide⟩, by decide, rfl⟩

/-- C8 (amended): the stored filename is assetId_sanitizedName(.ext):
starting from the declared name, preferring the URL's final path segment
when it contains a dot, REPLACING every character outside
alphanumerics/dot/hyphen by an underscore, appending the filetype-inferred
extension only when no dot survives, and prefixing the id and an
underscore; two assets with distinct UNDERSCORE-FREE identifiers never
collide on disk. -/
theorem C8_amended :
    (∀ a : Asset, generateSafeFilename a = amendedSafeFilename a) ∧
    (∀ a b : Asset, '_' ∉ a.id.data → '_' ∉ b.id.data → a.id ≠ b.id →
      generateSafeFilename a ≠ generateSafeFilename b) := by
  constructor
  · intro a
    simp only [generateSafeFilename, amendedSafeFilename, replaceBadChars_eq_map,
      appendExtIfNoDot]
  · intro a b ha hb hne heq
    apply hne
    rcases generateSafeFilename_shape a with ⟨ra, hra⟩
    rcases generateSafeFilename_shape b with ⟨rb, hrb⟩
    rw [hra, hrb] at heq
    have hdata := congrArg String.data heq
    simp only [String.data_append, List.append_assoc] at hdata
    have h2 : a.id.data ++ '_' :: ra.data = b.id.data ++ '_' :: rb.data := by
      simpa using hdata
    exact String.ext (append_underscore_inj a.id.data b.id.data ra.data rb.data ha hb h2)

/-- C8 witness: the amended statement applied to the space-named asset and
to two distinct underscore-free identifiers. -/
theorem C8_witness :
    generateSafeFilename c8Asset = amendedSafeFilename c8Asset ∧
    generateSafeFilename c8Asset ≠ generateSafeFilename c3AssetA := by
  refine ⟨C8_amended.1 c8Asset, C8_amended.2 c8Asset c3AssetA ?_ ?_ ?_⟩
  · decide
  · decide
  · decide

/-! ## Claim C9 — validation turns hollow successes into failures -/

/-- C9: whenever the internal pipeline reports playlistCycles and either
that list is empty or the selected default/first cycle has no assets,
initializeDigitalSignage returns success = false even though no exception
occurred internally. -/
theorem C9_theorem (env : InitEnv) (cycles : List PlaylistCycle)
    (hc : (initializeCore env).playlistCycles = some cycles)
    (hbad : cycles = [] ∨ ∃ d, getDefaultPlaylist cycles = some d ∧ d.assets = []) :
    (initializeDigitalSignage env).success = false := by
  have hv : validateResult (initializeCore env) = false := by
    unfold validateResult
    cases hsucc : (initializeCore env).success with
    | false => simp
    | true =>
      simp only [Bool.not_true, Bool.false_eq_true, if_false]
      rw [hc]
      rcases hbad with rfl | ⟨d, hd, hda⟩
      · simp
      · have hne : cycles.isEmpty = false := by
          cases cycles with
          | nil => simp [getDefaultPlaylist] at hd
          | cons x xs => rfl
        simp only [hne, Bool.false_eq_true, if_false, hd, hda]
        simp
  simp [initializeDigitalSignage, hv, failureResult]

/-- C9 witness: the zero-playlist run is rejected by validation. -/
theorem C9_witness : (initializeDigitalSignage c9Env).success = false :=
  C9_theorem c9Env [] rfl (Or.inl rfl)

/-! ## Claim C10 — one FetchResult per playlist membership -/

/-- C10: downloadAllAssets produces exactly one DownloadResult per playlist
membership in flatMap order (an asset listed in k playlists is processed k
times), so the returned length is the sum of the playlists' asset counts
and the orchestrator's totalAssets statistic equals that same sum. -/
theorem C10_theorem (env : FetchEnv) (dir : String) (resp : ApiResponse)
    (deviceName : Option String) (cycles : List PlaylistCycle) (elapsed : Int) :
    ((downloadAllAssets env dir resp).map DownloadResult.asset
        = (resp.playlists.map Playlist.assets).flatten)
    ∧ (downloadAllAssets env dir resp).length
        = (resp.playlists.map (fun p => p.assets.length)).sum
    ∧ (prepareFinalResult deviceName resp (downloadAllAssets env dir resp) cycles
        elapsed).stats.map InitStats.totalAssets
        = some ((resp.playlists.map (fun p => p.assets.length)).sum) := by
  have hmap : (downloadAllAssets env dir resp).map DownloadResult.asset
      = allAssetsOf resp := by
    unfold downloadAllAssets
    rw [List.map_map]
    have hpt : ∀ a ∈ allAssetsOf resp,
        (DownloadResult.asset ∘ fun a => (downloadAsset env dir a 3).1) a = id a := by
      intro a _
      show (downloadAssetGo env dir a 1 3).1.asset = a
      exact downloadAssetGo_asset env dir a 3 1
    rw [List.map_congr_left hpt, List.map_id]
  have hlen : (downloadAllAssets env dir resp).length
      = (resp.playlists.map (fun p => p.assets.length)).sum := by
    have h1 := congrArg List.length hmap
    rw [List.length_map] at h1
    rw [h1]
    unfold allAssetsOf
    rw [List.length_flatten, List.map_map]
    rfl
  refine ⟨hmap, hlen, ?_⟩
  simp [prepareFinalResult, hlen]
